import Mathlib

/-!
Shallow embedding of the round scheduler and protocol state machines of
deployment/tasks/run-simulation.ts: epoch and round arithmetic, the event
store maintained by the watcher loop, the signing-policy definition
protocol, the voting round driver and the finalization step, together with
theorems about each.
-/

namespace RunSim

/-- Number of voting epochs per reward epoch (run-simulation.ts line 34). -/
def REWARD_EPOCH_DURATION_IN_VOTING_EPOCHS : Int := 5

/-- Duration of one voting epoch in seconds (run-simulation.ts line 35). -/
def VOTING_EPOCH_DURATION_SEC : Int := 20

/-- Reward epoch duration in seconds (run-simulation.ts line 36). -/
def REWARD_EPOCH_DURATION_IN_SEC : Int :=
  REWARD_EPOCH_DURATION_IN_VOTING_EPOCHS * VOTING_EPOCH_DURATION_SEC

/-- JavaScript String.prototype.toLowerCase, modelled character-wise. -/
def lowerStr (s : String) : String := String.mk (s.data.map Char.toLower)

/-- A web3 account: an address together with its private key. -/
structure Account where
  address : String
  privateKey : String
  deriving DecidableEq

/-- Role-separated key material of one registered voter
(run-simulation.ts lines 129-134). -/
structure RegisteredAccount where
  submit : Account
  submitSignatures : Account
  signingPolicy : Account
  identity : Account
  deriving DecidableEq

/-- A signing policy as decoded from a SigningPolicyInitialized event by
extractSigningPolicy (run-simulation.ts lines 771-780). -/
structure ISigningPolicy where
  rewardEpochId : Int
  startVotingRoundId : Int
  threshold : Int
  seed : String
  voters : List String
  weights : List Int
  deriving DecidableEq

/-- Modelled from the spec: the EpochClock timing configuration. The class
EpochSettings (deployment/utils/EpochSettings.ts) is not among the sources,
only its use sites are; fields follow section 4.1 of the spec, in seconds. -/
structure EpochSettings where
  firstVotingEpochStartSec : Int
  votingEpochDurationSec : Int
  rewardEpochStartSec : Int
  rewardEpochDurationSec : Int
  deriving DecidableEq

/-- Modelled from the spec: the voting round index at a timestamp,
roundId = floor((timestamp - firstRoundStart) / roundDurationSec)
(EpochSettings.votingEpochForTime is not among the sources). -/
def votingEpochForTime (s : EpochSettings) (tSec : Int) : Int :=
  (tSec - s.firstVotingEpochStartSec).fdiv s.votingEpochDurationSec

/-- Modelled from the spec: the reward epoch index at a timestamp, by the
same floor arithmetic over the reward epoch duration
(EpochSettings.rewardEpochForTime is not among the sources). -/
def rewardEpochForTime (s : EpochSettings) (tSec : Int) : Int :=
  (tSec - s.rewardEpochStartSec).fdiv s.rewardEpochDurationSec

/-- The timing configuration of the end-to-end scenario: reward epoch
duration 100s, round duration 20s, with voting round 0 and reward epoch 0
both starting at T0, instantiated with the simulation constants. -/
def scenarioSettings (T0 : Int) : EpochSettings where
  firstVotingEpochStartSec := T0
  votingEpochDurationSec := VOTING_EPOCH_DURATION_SEC
  rewardEpochStartSec := T0
  rewardEpochDurationSec := REWARD_EPOCH_DURATION_IN_SEC

/-- The event store shared between the watcher loop and the drivers
(run-simulation.ts lines 136-140). The rewardEpochEvents map is modelled
as a total function defaulting to the empty list, matching the read
rewardEpochEvents.get(id) with a fallback to an empty array. -/
structure EventStore where
  initializedVotingRound : Int
  rewardEpochEvents : Int → List String

/-- Appending an event name to a reward epoch's event list, as done by
processLog (run-simulation.ts lines 373-375: get-or-default, push, set). -/
def recordEvent (store : Int → List String) (rewardEpochId : Int) (name : String) :
    Int → List String :=
  fun i => if i = rewardEpochId then store rewardEpochId ++ [name] else store i

/-- The has-event query used by the wait loops of the drivers, e.g.
rewardEvents.get(rewardEpochId)?.includes(name) at run-simulation.ts line 478. -/
def hasEvent (store : Int → List String) (rewardEpochId : Int) (name : String) : Bool :=
  (store rewardEpochId).contains name

/-- One processLog call (run-simulation.ts lines 364-383) acting on the
event store. For a NewVotingRoundInitiated event the latest initialized
round is raised to the computed round id when that is larger; any other
event is appended to its reward epoch's event list. The installation of a
decoded signing policy into the separate signingPolicies map (lines
377-381) does not touch the EventStore and is not modelled here. -/
def processLog (s : EpochSettings) (event : String) (timestampSec : Int)
    (events : EventStore) : EventStore :=
  if event = ("NewVotingRoundInitiated") then
    let votingRoundId := votingEpochForTime s timestampSec
    if votingRoundId > events.initializedVotingRound then
      { events with initializedVotingRound := votingRoundId }
    else events
  else
    let rewardEpochId := rewardEpochForTime s timestampSec
    { events with
        rewardEpochEvents := recordEvent events.rewardEpochEvents rewardEpochId event }

/-- A sequence of processLog calls, as performed by the watcher loop
(run-simulation.ts lines 303-325), each log paired with its block
timestamp. -/
def processLogs (s : EpochSettings) (logs : List (String × Int))
    (events : EventStore) : EventStore :=
  logs.foldl (fun st p => processLog s p.1 p.2 st) events

/-- The loop guard of the initialization wait in runVotingRound,
run-simulation.ts line 584: while (votingRoundId < events.initializedVotingRound).
The loop body only logs and sleeps, so the call blocks exactly while this
guard holds of the shared store. -/
def awaitInitializationGuard (votingRoundId initializedVotingRound : Int) : Bool :=
  votingRoundId < initializedVotingRound

/-- The guard the specification gives for AwaitInitialization: busy-wait
while votingRoundId > latestInitializedRound(). Stated from the spec's
words, to be compared with the guard found in the code. -/
def specAwaitInitializationGuard (votingRoundId latestInitializedRound : Int) : Bool :=
  votingRoundId > latestInitializedRound

/- Monotonicity helpers for the event store. -/

lemma processLog_initialized_le (s : EpochSettings) (event : String) (t : Int)
    (st : EventStore) :
    st.initializedVotingRound ≤ (processLog s event t st).initializedVotingRound := by
  unfold processLog
  by_cases h : event = ("NewVotingRoundInitiated") <;> simp [h]
  split
  · simp
    omega
  · simp

lemma processLogs_initialized_le (s : EpochSettings) (logs : List (String × Int))
    (st : EventStore) :
    st.initializedVotingRound ≤ (processLogs s logs st).initializedVotingRound := by
  induction logs generalizing st with
  | nil => exact le_refl _
  | cons p logs ih =>
    calc st.initializedVotingRound
        ≤ (processLog s p.1 p.2 st).initializedVotingRound :=
          processLog_initialized_le s p.1 p.2 st
      _ ≤ (processLogs s logs (processLog s p.1 p.2 st)).initializedVotingRound := ih _
      _ = (processLogs s (p :: logs) st).initializedVotingRound := rfl

/-- C6: a processLog call sets the latest initialized voting round to the
maximum of its current value and the newly computed round id when the event
is NewVotingRoundInitiated, and leaves it unchanged otherwise; consequently
it never decreases, across any sequence of processLog calls. -/
theorem processLog_initialized_round_monotone (s : EpochSettings) (event : String)
    (t : Int) (st : EventStore) (logs : List (String × Int)) :
    (processLog s event t st).initializedVotingRound =
      (if event = ("NewVotingRoundInitiated") then
        max st.initializedVotingRound (votingEpochForTime s t)
      else st.initializedVotingRound) ∧
    st.initializedVotingRound ≤ (processLog s event t st).initializedVotingRound ∧
    st.initializedVotingRound ≤ (processLogs s logs st).initializedVotingRound := by
  refine ⟨?_, processLog_initialized_le s event t st, processLogs_initialized_le s logs st⟩
  unfold processLog
  by_cases h : event = ("NewVotingRoundInitiated") <;> simp [h]
  split <;> simp <;> omega

/-- C7: recording an event then querying it round-trips: the has-event
query is true immediately after the append; recording keeps every epoch's
previous list as a sublist (it never removes entries); and recording a
duplicate name appends it again, raising its count by one rather than
deduplicating. -/
theorem recordEvent_hasEvent_roundtrip (store : Int → List String) (rewardEpochId : Int)
    (name : String) (i : Int) :
    hasEvent (recordEvent store rewardEpochId name) rewardEpochId name = true ∧
    List.Sublist (store i) (recordEvent store rewardEpochId name i) ∧
    (recordEvent store rewardEpochId name rewardEpochId).count name =
      (store rewardEpochId).count name + 1 := by
  refine ⟨?_, ?_, ?_⟩
  · simp [hasEvent, recordEvent]
  · unfold recordEvent
    split
    · next h => subst h; exact List.sublist_append_left _ _
    · exact List.Sublist.refl _
  · simp [recordEvent]

/-- C1: the initialization wait guard in the code is
votingRoundId < initializedVotingRound, which is the reverse of the
specified wait-while votingRoundId > latestInitializedRound() condition:
with votingRoundId = 2 and latest initialized round 1 the code does not
wait although the round is not yet initialized, and with votingRoundId = 1
and latest initialized round 2 the code waits although the round is already
initialized. -/
theorem awaitInitializationGuard_inverted :
    awaitInitializationGuard 2 1 = false ∧ specAwaitInitializationGuard 2 1 = true ∧
    awaitInitializationGuard 1 2 = true ∧ specAwaitInitializationGuard 1 2 = false := by
  decide

/-- C10: epoch and round arithmetic follow the floor formula, and in the
concrete scenario (reward epoch duration 100s, round duration 20s, round 0
starting at T0) the round and reward epoch indices at T0+45 are 2 and 0,
and at T0+105 are 5 and 1, for every T0. -/
theorem epoch_round_arithmetic (s : EpochSettings) (t T0 : Int) :
    votingEpochForTime s t =
      (t - s.firstVotingEpochStartSec).fdiv s.votingEpochDurationSec ∧
    votingEpochForTime (scenarioSettings T0) (T0 + 45) = 2 ∧
    rewardEpochForTime (scenarioSettings T0) (T0 + 45) = 0 ∧
    votingEpochForTime (scenarioSettings T0) (T0 + 105) = 5 ∧
    rewardEpochForTime (scenarioSettings T0) (T0 + 105) = 1 := by
  have h45 : T0 + 45 - T0 = (45 : Int) := by ring
  have h105 : T0 + 105 - T0 = (105 : Int) := by ring
  refine ⟨rfl, ?_, ?_, ?_, ?_⟩ <;>
    simp only [votingEpochForTime, rewardEpochForTime, scenarioSettings, h45, h105,
      VOTING_EPOCH_DURATION_SEC, REWARD_EPOCH_DURATION_IN_SEC,
      REWARD_EPOCH_DURATION_IN_VOTING_EPOCHS] <;>
    decide

/-- Authority response to one signNewSigningPolicy submission: the event
name of the first emitted log, if any (signResponse.logs[0]?.event), and
the thresholdReached argument of that log. -/
structure SignResponse where
  firstLogEvent : Option String
  thresholdReached : Bool
  deriving DecidableEq

/-- The ratification loop of defineNextSigningPolicy (run-simulation.ts
lines 506-530): participants are visited in the order they were provided;
a participant whose lowercased signing-policy address is in the skip set is
passed over; otherwise the participant signs the policy hash and submits,
and the response is inspected: a response whose first log is not a
SigningPolicySigned event throws (modelled as .error), and a response with
thresholdReached causes an early return. The result collects the addresses
that submitted a signature, in order, with the flag recording whether the
loop ended by reaching the threshold. -/
def signLoop (skipSet : List String) (respond : RegisteredAccount → SignResponse) :
    List RegisteredAccount → Except String (List String × Bool)
  | [] => .ok ([], false)
  | acc :: rest =>
    if lowerStr acc.signingPolicy.address ∈ skipSet then
      signLoop skipSet respond rest
    else
      let r := respond acc
      if r.firstLogEvent ≠ some ("SigningPolicySigned") then
        .error ("Expected signing policy to be signed")
      else if r.thresholdReached then
        .ok ([acc.signingPolicy.address], true)
      else
        (signLoop skipSet respond rest).map
          (fun p => (acc.signingPolicy.address :: p.1, p.2))

/-- The voter-registration loop of defineNextSigningPolicy
(run-simulation.ts lines 490-496) together with registerVoter (lines
762-769). Participants in the skip set are passed over; for each other
participant a registration for the next reward epoch is submitted.
registerVoter is awaited with no try/catch around it, so a rejected
registration propagates out of the loop (modelled by the Except): the
result is the list of registered signing-policy addresses in order, or the
first error. -/
def registrationLoop (skipSet : List String)
    (register : RegisteredAccount → Except String Unit) :
    List RegisteredAccount → Except String (List String)
  | [] => .ok []
  | acc :: rest =>
    if lowerStr acc.signingPolicy.address ∈ skipSet then
      registrationLoop skipSet register rest
    else
      match register acc with
      | .error e => .error e
      | .ok _ => (registrationLoop skipSet register rest).map
          (fun l => acc.signingPolicy.address :: l)

/-- The participants the ratification and registration loops act on: those
whose lowercased signing-policy address is outside the skip set, in the
order they were provided. -/
def eligibleAccounts (skipSet : List String) (l : List RegisteredAccount) :
    List RegisteredAccount :=
  l.filter (fun b => decide (lowerStr b.signingPolicy.address ∉ skipSet))

/- Step lemmas for the two loops. -/

lemma signLoop_cons_skipped (skipSet : List String)
    (respond : RegisteredAccount → SignResponse) (b : RegisteredAccount)
    (rest : List RegisteredAccount) (hb : lowerStr b.signingPolicy.address ∈ skipSet) :
    signLoop skipSet respond (b :: rest) = signLoop skipSet respond rest := by
  simp [signLoop, hb]

lemma signLoop_cons_signed (skipSet : List String)
    (respond : RegisteredAccount → SignResponse) (b : RegisteredAccount)
    (rest : List RegisteredAccount) (hb : lowerStr b.signingPolicy.address ∉ skipSet)
    (hack : (respond b).firstLogEvent = some ("SigningPolicySigned"))
    (hthr : (respond b).thresholdReached = false) :
    signLoop skipSet respond (b :: rest) =
      (signLoop skipSet respond rest).map
        (fun p => (b.signingPolicy.address :: p.1, p.2)) := by
  simp [signLoop, hb, hack, hthr]

lemma eligibleAccounts_cons_skipped (skipSet : List String) (b : RegisteredAccount)
    (l : List RegisteredAccount) (hb : lowerStr b.signingPolicy.address ∈ skipSet) :
    eligibleAccounts skipSet (b :: l) = eligibleAccounts skipSet l := by
  simp [eligibleAccounts, List.filter_cons, hb]

lemma eligibleAccounts_cons_kept (skipSet : List String) (b : RegisteredAccount)
    (l : List RegisteredAccount) (hb : lowerStr b.signingPolicy.address ∉ skipSet) :
    eligibleAccounts skipSet (b :: l) = b :: eligibleAccounts skipSet l := by
  simp [eligibleAccounts, List.filter_cons, hb]

lemma signLoop_append (skipSet : List String)
    (respond : RegisteredAccount → SignResponse)
    (l1 rest : List RegisteredAccount)
    (hpre : ∀ b ∈ l1, lowerStr b.signingPolicy.address ∉ skipSet →
      (respond b).firstLogEvent = some ("SigningPolicySigned") ∧
      (respond b).thresholdReached = false) :
    signLoop skipSet respond (l1 ++ rest) =
      (signLoop skipSet respond rest).map (fun p =>
        (((eligibleAccounts skipSet l1).map (fun b => b.signingPolicy.address)) ++ p.1,
          p.2)) := by
  induction l1 with
  | nil =>
    cases h : signLoop skipSet respond rest <;> simp [h, eligibleAccounts, Except.map]
  | cons b l1 ih =>
    have hb' := fun c hc => hpre c (List.mem_cons_of_mem b hc)
    by_cases hb : lowerStr b.signingPolicy.address ∈ skipSet
    · rw [List.cons_append, signLoop_cons_skipped skipSet respond b (l1 ++ rest) hb,
        ih hb', eligibleAccounts_cons_skipped skipSet b l1 hb]
    · have hbe := hpre b (List.mem_cons_self b l1) hb
      rw [List.cons_append, signLoop_cons_signed skipSet respond b (l1 ++ rest) hb
        hbe.1 hbe.2, ih hb', eligibleAccounts_cons_kept skipSet b l1 hb]
      cases h : signLoop skipSet respond rest <;> simp [Except.map]

/-- C3: in the ratification step participants are iterated in the order
provided, the skip set is passed over, and as soon as one eligible
participant's submission is acknowledged with thresholdReached the loop
returns successfully: the signers are exactly the eligible prefix followed
by that participant, and the result does not depend on the participants
after it, who never sign. -/
theorem defineNextSigningPolicy_threshold_early_exit (skipSet : List String)
    (respond : RegisteredAccount → SignResponse)
    (l1 l2 : List RegisteredAccount) (a : RegisteredAccount)
    (hskip : lowerStr a.signingPolicy.address ∉ skipSet)
    (hack : (respond a).firstLogEvent = some ("SigningPolicySigned"))
    (hthr : (respond a).thresholdReached = true)
    (hpre : ∀ b ∈ l1, lowerStr b.signingPolicy.address ∉ skipSet →
      (respond b).firstLogEvent = some ("SigningPolicySigned") ∧
      (respond b).thresholdReached = false) :
    signLoop skipSet respond (l1 ++ a :: l2) =
      .ok ((((eligibleAccounts skipSet l1).map (fun b => b.signingPolicy.address)) ++
        [a.signingPolicy.address]), true) := by
  rw [signLoop_append skipSet respond l1 (a :: l2) hpre]
  simp [signLoop, hskip, hack, hthr, Except.map]

/-- C5: if an eligible participant's signNewSigningPolicy response does not
carry a SigningPolicySigned acknowledgment as its first log, the loop
throws the unrecoverable error instead of continuing: the result is that
error, independently of the participants after the offending one. -/
theorem defineNextSigningPolicy_missing_ack_throws (skipSet : List String)
    (respond : RegisteredAccount → SignResponse)
    (l1 l2 : List RegisteredAccount) (a : RegisteredAccount)
    (hskip : lowerStr a.signingPolicy.address ∉ skipSet)
    (hbad : (respond a).firstLogEvent ≠ some ("SigningPolicySigned"))
    (hpre : ∀ b ∈ l1, lowerStr b.signingPolicy.address ∉ skipSet →
      (respond b).firstLogEvent = some ("SigningPolicySigned") ∧
      (respond b).thresholdReached = false) :
    signLoop skipSet respond (l1 ++ a :: l2) =
      .error ("Expected signing policy to be signed") := by
  rw [signLoop_append skipSet respond l1 (a :: l2) hpre]
  simp [signLoop, hskip, hbad, Except.map]

/-- C4 amended: each participant not in the skip set is submitted for
registration in order, but a failing registration is not caught: the first
error propagates out of the loop, aborting the signing-policy run, and the
participants after the failing one are not registered. -/
theorem registrationLoop_first_error_propagates (skipSet : List String)
    (register : RegisteredAccount → Except String Unit)
    (l1 l2 : List RegisteredAccount) (a : RegisteredAccount) (e : String)
    (hskip : lowerStr a.signingPolicy.address ∉ skipSet)
    (hfail : register a = .error e)
    (hpre : ∀ b ∈ l1, lowerStr b.signingPolicy.address ∉ skipSet →
      register b = .ok ()) :
    registrationLoop skipSet register (l1 ++ a :: l2) = .error e := by
  induction l1 with
  | nil => simp [registrationLoop, hskip, hfail]
  | cons b l1 ih =>
    have hb' := fun c hc => hpre c (List.mem_cons_of_mem b hc)
    by_cases hb : lowerStr b.signingPolicy.address ∈ skipSet
    · rw [List.cons_append]
      rw [show registrationLoop skipSet register (b :: (l1 ++ a :: l2)) =
        registrationLoop skipSet register (l1 ++ a :: l2) by simp [registrationLoop, hb]]
      exact ih hb'
    · have hbe := hpre b (List.mem_cons_self b l1) hb
      rw [List.cons_append]
      rw [show registrationLoop skipSet register (b :: (l1 ++ a :: l2)) =
        (registrationLoop skipSet register (l1 ++ a :: l2)).map
          (fun l => b.signingPolicy.address :: l) by simp [registrationLoop, hb, hbe]]
      rw [ih hb']
      rfl

/-- The key lookup of fakeFinalize (run-simulation.ts lines 654-659): the
signing-policy private key of the first registered account whose
signing-policy address matches the voter, case-insensitively; none when the
voter is not among the registered accounts (in which case the voter is
skipped with a logged note). -/
def voterKey (registeredAccounts : List RegisteredAccount) (voter : String) :
    Option String :=
  (registeredAccounts.find? (fun x =>
      lowerStr x.signingPolicy.address == lowerStr voter)).map
    (fun acc => acc.signingPolicy.privateKey)

/-- The ordered private-key collection of fakeFinalize (run-simulation.ts
lines 651-660): iterate the signing policy's voter list in its stored
order, pushing the matching local account's signing-policy key and skipping
voters with no local match. The signature list submitted to the relay is
generateSignatures applied to this key list, so the emitted signature order
is the order computed here. -/
def privateKeysInOrder (signingPolicy : ISigningPolicy)
    (registeredAccounts : List RegisteredAccount) : List String :=
  signingPolicy.voters.filterMap (voterKey registeredAccounts)

lemma voterKey_perm (accs accs' : List RegisteredAccount)
    (hperm : List.Perm accs accs')
    (hfun : ∀ a ∈ accs, ∀ b ∈ accs,
      lowerStr a.signingPolicy.address = lowerStr b.signingPolicy.address →
      a.signingPolicy.privateKey = b.signingPolicy.privateKey)
    (v : String) : voterKey accs v = voterKey accs' v := by
  unfold voterKey
  cases h1 : accs.find? (fun x => lowerStr x.signingPolicy.address == lowerStr v) with
  | none =>
    cases h2 : accs'.find? (fun x => lowerStr x.signingPolicy.address == lowerStr v) with
    | none => rfl
    | some b =>
      exfalso
      have hb := List.find?_some h2
      have hbmem : b ∈ accs := hperm.mem_iff.mpr (List.mem_of_find?_eq_some h2)
      have := List.find?_eq_none.mp h1 b hbmem
      exact this hb
  | some a =>
    cases h2 : accs'.find? (fun x => lowerStr x.signingPolicy.address == lowerStr v) with
    | none =>
      exfalso
      have ha := List.find?_some h1
      have hamem : a ∈ accs' := hperm.mem_iff.mp (List.mem_of_find?_eq_some h1)
      have := List.find?_eq_none.mp h2 a hamem
      exact this ha
    | some b =>
      have ha : lowerStr a.signingPolicy.address = lowerStr v := by
        simpa using List.find?_some h1
      have hb : lowerStr b.signingPolicy.address = lowerStr v := by
        simpa using List.find?_some h2
      have hamem : a ∈ accs := List.mem_of_find?_eq_some h1
      have hbmem : b ∈ accs := hperm.mem_iff.mpr (List.mem_of_find?_eq_some h2)
      have hkey := hfun a hamem b hbmem (ha.trans hb.symm)
      simp [hkey]

lemma filterMap_eq_filter_then_map {α β : Type} (f : α → Option β) (d : β)
    (l : List α) :
    l.filterMap f =
      (l.filter (fun a => (f a).isSome)).map (fun a => (f a).getD d) := by
  induction l with
  | nil => rfl
  | cons a l ih =>
    cases h : f a <;>
      simp [List.filterMap_cons, List.filter_cons, h, ih]

/-- C2: the finalization step collects signing keys following the signing
policy's stored voter order: given the functionality of the local account
list (accounts sharing a lowercased signing-policy address hold the same
key), the collected key list is invariant under any permutation of the
local participant list, and equals the matched voters of the policy list,
in policy order, each mapped to its local key — so unmatched voters are
skipped and local list order never reorders signatures. -/
theorem fakeFinalize_signature_order (sp : ISigningPolicy)
    (accs accs' : List RegisteredAccount)
    (hperm : List.Perm accs accs')
    (hfun : ∀ a ∈ accs, ∀ b ∈ accs,
      lowerStr a.signingPolicy.address = lowerStr b.signingPolicy.address →
      a.signingPolicy.privateKey = b.signingPolicy.privateKey) :
    privateKeysInOrder sp accs = privateKeysInOrder sp accs' ∧
    privateKeysInOrder sp accs =
      (sp.voters.filter (fun v => (voterKey accs v).isSome)).map
        (fun v => (voterKey accs v).getD ("")) := by
  constructor
  · unfold privateKeysInOrder
    induction sp.voters with
    | nil => rfl
    | cons v vs ih =>
      simp [List.filterMap_cons, voterKey_perm accs accs' hperm hfun v, ih]
  · exact filterMap_eq_filter_then_map (voterKey accs) ("") sp.voters

/-- The caught-error view of one submission attempt: none for a successful
transaction, the error message for a rejected one. -/
def caughtError (r : Except String Unit) : Option String :=
  match r with
  | .ok _ => none
  | .error e => some e

/-- One per-participant submission phase of runVotingRound (each of the
three loops at run-simulation.ts lines 595-601, 604-610 and 618-624):
every account is attempted in order; a rejected submission is caught,
logged (recorded here as a some entry) and the loop continues with the
remaining accounts. -/
def phaseLoop (addrOf : RegisteredAccount → String)
    (attempt : RegisteredAccount → Except String Unit) :
    List RegisteredAccount → List (String × Option String)
  | [] => []
  | acc :: rest =>
    match attempt acc with
    | .ok _ => (addrOf acc, none) :: phaseLoop addrOf attempt rest
    | .error e => (addrOf acc, some e) :: phaseLoop addrOf attempt rest

/-- What one runVotingRound invocation did: for each phase the attempted
accounts in order, each with its caught error if any, and whether
fakeFinalize was invoked. -/
structure RoundTrace where
  commits : List (String × Option String)
  reveals : List (String × Option String)
  signatureSubmissions : List (String × Option String)
  finalized : Bool
  deriving DecidableEq

/-- The submission and finalization steps of runVotingRound
(run-simulation.ts lines 594-627): the commit, reveal and
signature-submission loops run only when skipSubmit is false, and
fakeFinalize is invoked unless skipFinalisation is set. Commit and reveal
use each account's submit address, signature submission its
submitSignatures address; the sleeps between phases are not modelled. -/
def runVotingRoundActions (skipSubmit skipFinalisation : Bool)
    (submit1 submit2 submitSignatures : RegisteredAccount → Except String Unit)
    (registeredAccounts : List RegisteredAccount) : RoundTrace where
  commits :=
    if skipSubmit then [] else
      phaseLoop (fun a => a.submit.address) submit1 registeredAccounts
  reveals :=
    if skipSubmit then [] else
      phaseLoop (fun a => a.submit.address) submit2 registeredAccounts
  signatureSubmissions :=
    if skipSubmit then [] else
      phaseLoop (fun a => a.submitSignatures.address) submitSignatures registeredAccounts
  finalized := !skipFinalisation

lemma phaseLoop_eq_map (addrOf : RegisteredAccount → String)
    (attempt : RegisteredAccount → Except String Unit)
    (l : List RegisteredAccount) :
    phaseLoop addrOf attempt l =
      l.map (fun a => (addrOf a, caughtError (attempt a))) := by
  induction l with
  | nil => rfl
  | cons a l ih =>
    cases h : attempt a <;> simp [phaseLoop, h, ih, caughtError]

/-- C8: with submissions enabled, every phase of the voting round driver
attempts every participant in order; a participant whose commit fails
contributes a caught, logged error entry instead of aborting the round, the
remaining participants are still attempted in all three phases, and
finalization still runs unless independently skipped. -/
theorem runVotingRound_participant_failure_skipped (skipFinalisation : Bool)
    (submit1 submit2 submitSignatures : RegisteredAccount → Except String Unit)
    (accs : List RegisteredAccount) (a : RegisteredAccount) (e : String)
    (ha : a ∈ accs) (hfail : submit1 a = .error e) :
    (runVotingRoundActions false skipFinalisation submit1 submit2 submitSignatures
        accs).commits =
      accs.map (fun b => (b.submit.address, caughtError (submit1 b))) ∧
    (a.submit.address, some e) ∈
      (runVotingRoundActions false skipFinalisation submit1 submit2 submitSignatures
        accs).commits ∧
    (runVotingRoundActions false skipFinalisation submit1 submit2 submitSignatures
        accs).reveals =
      accs.map (fun b => (b.submit.address, caughtError (submit2 b))) ∧
    (runVotingRoundActions false skipFinalisation submit1 submit2 submitSignatures
        accs).signatureSubmissions =
      accs.map (fun b => (b.submitSignatures.address, caughtError (submitSignatures b))) ∧
    (runVotingRoundActions false skipFinalisation submit1 submit2 submitSignatures
        accs).finalized = !skipFinalisation := by
  refine ⟨?_, ?_, ?_, ?_, rfl⟩
  · simp [runVotingRoundActions, phaseLoop_eq_map]
  · have hmem := List.mem_map_of_mem
      (fun b => (b.submit.address, caughtError (submit1 b))) ha
    simp only [runVotingRoundActions, if_false, Bool.false_eq_true, ite_false,
      phaseLoop_eq_map]
    simpa [caughtError, hfail] using hmem
  · simp [runVotingRoundActions, phaseLoop_eq_map]
  · simp [runVotingRoundActions, phaseLoop_eq_map]

/-- C9: with skipSubmit set, the voting round driver performs no commit,
reveal or signature submission for any participant, while fakeFinalize is
still invoked exactly when skipFinalisation is not set. -/
theorem runVotingRound_skipSubmit_no_submissions (skipFinalisation : Bool)
    (submit1 submit2 submitSignatures : RegisteredAccount → Except String Unit)
    (accs : List RegisteredAccount) :
    (runVotingRoundActions true skipFinalisation submit1 submit2 submitSignatures
        accs).commits = [] ∧
    (runVotingRoundActions true skipFinalisation submit1 submit2 submitSignatures
        accs).reveals = [] ∧
    (runVotingRoundActions true skipFinalisation submit1 submit2 submitSignatures
        accs).signatureSubmissions = [] ∧
    (runVotingRoundActions true skipFinalisation submit1 submit2 submitSignatures
        accs).finalized = !skipFinalisation := by
  refine ⟨rfl, rfl, rfl, rfl⟩

/- Concrete participants, responses and policies used by the witnesses. -/

/-- A registered account holding the signing-policy key keyA for the
mixed-case address 0xA. -/
def accA : RegisteredAccount :=
  ⟨⟨("sa"), ("ksa")⟩, ⟨("qa"), ("kqa")⟩, ⟨("0xA"), ("keyA")⟩, ⟨("ia"), ("kia")⟩⟩

/-- A registered account holding the signing-policy key keyC for the
mixed-case address 0xC. -/
def accC : RegisteredAccount :=
  ⟨⟨("sc"), ("ksc")⟩, ⟨("qc"), ("kqc")⟩, ⟨("0xC"), ("keyC")⟩, ⟨("ic"), ("kic")⟩⟩

/-- A signing policy whose stored voter order is 0xa, 0xb, 0xc. -/
def examplePolicy : ISigningPolicy :=
  ⟨1, 1000, 4, ("0xseed"), [("0xa"), ("0xb"), ("0xc")], [3, 2, 1]⟩

/-- Participant 1 of the ratification examples, signing-policy address 0xv1. -/
def accv1 : RegisteredAccount :=
  ⟨⟨("s1"), ("ks1")⟩, ⟨("q1"), ("kq1")⟩, ⟨("0xv1"), ("key1")⟩, ⟨("i1"), ("ki1")⟩⟩

/-- A participant placed in the skip sets, signing-policy address 0xvs. -/
def accvS : RegisteredAccount :=
  ⟨⟨("ss"), ("kss")⟩, ⟨("qs"), ("kqs")⟩, ⟨("0xvs"), ("keyS")⟩, ⟨("is"), ("kis")⟩⟩

/-- Participant 2 of the ratification examples, signing-policy address 0xv2. -/
def accv2 : RegisteredAccount :=
  ⟨⟨("s2"), ("ks2")⟩, ⟨("q2"), ("kq2")⟩, ⟨("0xv2"), ("key2")⟩, ⟨("i2"), ("ki2")⟩⟩

/-- Participant 3 of the ratification examples, signing-policy address 0xv3. -/
def accv3 : RegisteredAccount :=
  ⟨⟨("s3"), ("ks3")⟩, ⟨("q3"), ("kq3")⟩, ⟨("0xv3"), ("key3")⟩, ⟨("i3"), ("ki3")⟩⟩

/-- An authority that acknowledges every signature and reports the
threshold reached exactly at participant 0xv2. -/
def exRespond (acc : RegisteredAccount) : SignResponse :=
  if acc.signingPolicy.address = ("0xv2") then ⟨some ("SigningPolicySigned"), true⟩
  else ⟨some ("SigningPolicySigned"), false⟩

/-- An authority whose response to participant 0xv2 carries no
SigningPolicySigned log. -/
def exRespondBad (acc : RegisteredAccount) : SignResponse :=
  if acc.signingPolicy.address = ("0xv2") then ⟨none, false⟩
  else ⟨some ("SigningPolicySigned"), false⟩

/-- A registry that rejects participant 0xv2's registration and accepts
every other one. -/
def exRegisterFail (acc : RegisteredAccount) : Except String Unit :=
  if acc.signingPolicy.address = ("0xv2") then .error ("revert") else .ok ()

/-- A submission contract that rejects the transaction of the account whose
submit address is s2 and accepts every other one. -/
def exSubmitFail (acc : RegisteredAccount) : Except String Unit :=
  if acc.submit.address = ("s2") then .error ("boom") else .ok ()

/-- A submission contract that accepts every transaction. -/
def exSubmitOk (_acc : RegisteredAccount) : Except String Unit := .ok ()

/-- Witness for C2: with policy voters 0xa, 0xb, 0xc and local accounts for
0xA and 0xC only, the collected keys are keyA then keyC in both local
orders, never keyC first. -/
theorem fakeFinalize_signature_order_witness :
    privateKeysInOrder examplePolicy [accA, accC] = [("keyA"), ("keyC")] ∧
    privateKeysInOrder examplePolicy [accC, accA] = [("keyA"), ("keyC")] := by
  have h := fakeFinalize_signature_order examplePolicy [accA, accC] [accC, accA]
    (List.Perm.swap accC accA []) (by decide)
  refine ⟨by decide, ?_⟩
  rw [← h.1]
  decide

/-- Witness for C3: with the skip set containing 0xvs and the threshold
reached at 0xv2, the loop returns successfully with signers 0xv1 and 0xv2;
participant 0xv3 never signs. -/
theorem defineNextSigningPolicy_threshold_early_exit_witness :
    signLoop [("0xvs")] exRespond [accv1, accvS, accv2, accv3] =
      .ok ([("0xv1"), ("0xv2")], true) := by
  have h := defineNextSigningPolicy_threshold_early_exit [("0xvs")] exRespond
    [accv1, accvS] [accv3] accv2 (by decide) (by decide) (by decide) (by decide)
  exact h

/-- Witness for C5: when 0xv2's response carries no SigningPolicySigned
log, the loop ends in the unrecoverable error without visiting 0xv3. -/
theorem defineNextSigningPolicy_missing_ack_throws_witness :
    signLoop [] exRespondBad [accv1, accv2, accv3] =
      .error ("Expected signing policy to be signed") := by
  have h := defineNextSigningPolicy_missing_ack_throws [] exRespondBad
    [accv1] [accv3] accv2 (by decide) (by decide) (by decide)
  exact h

/-- C4 counterexample: with no skip set and the registry rejecting 0xv2,
the registration loop of defineNextSigningPolicy ends in the propagated
error: contrary to the claim, the failure is fatal to the driver and
participant 0xv3 is never registered (a non-fatal handling would have
produced a successful result still containing 0xv3's address). -/
theorem registrationLoop_failure_fatal_counterexample :
    registrationLoop [] exRegisterFail [accv1, accv2, accv3] =
      .error ("revert") ∧
    registrationLoop [] exRegisterFail [accv1, accv3] = .ok [("0xv1"), ("0xv3")] := by
  exact ⟨rfl, rfl⟩

/-- Witness for the amended C4: with 0xv1 in the skip set and 0xv2's
registration rejected, the loop ends in that error. -/
theorem registrationLoop_first_error_propagates_witness :
    registrationLoop [("0xv1")] exRegisterFail [accv1, accv2, accv3] =
      .error ("revert") := by
  have h := registrationLoop_first_error_propagates [("0xv1")] exRegisterFail
    [accv1] [accv3] accv2 ("revert") (by decide) (by rfl)
    (by
      intro b hb hnb
      exfalso
      have hbeq : b = accv1 := by
        cases hb with
        | head => rfl
        | tail _ hmem => cases hmem
      apply hnb
      rw [hbeq]
      decide)
  exact h

/-- Witness for C8: with the submission contract rejecting the account with
submit address s2, the commit phase records the caught error for s2 while
s1 and s3 still commit, and finalization still runs. -/
theorem runVotingRound_participant_failure_skipped_witness :
    (runVotingRoundActions false false exSubmitFail exSubmitOk exSubmitOk
        [accv1, accv2, accv3]).commits =
      [(("s1"), none), (("s2"), some ("boom")), (("s3"), none)] ∧
    (runVotingRoundActions false false exSubmitFail exSubmitOk exSubmitOk
        [accv1, accv2, accv3]).finalized = true := by
  have h := runVotingRound_participant_failure_skipped false exSubmitFail exSubmitOk
    exSubmitOk [accv1, accv2, accv3] accv2 ("boom") (by decide) (by rfl)
  refine ⟨?_, ?_⟩
  · rw [h.1]
    rfl
  · exact h.2.2.2.2

end RunSim
